import Mathlib

/-!
Shallow embedding of the KuzuMem-MCP memory-service kernel, for checking the
specification claims C1..C10 against the source. Each definition mirrors one
source function (repository gateway, memory operation, domain service method
or tool dispatcher); graph state is explicit and queries are evaluated as
pure functions over it.
-/

namespace KuzuMem

/-- The graph_unique_id derivation used throughout the repositories
(utils/id.utils formatGraphUniqueId): repository name, branch and logical id
joined by colons. -/
def formatGraphUniqueId (repositoryName branch logicalId : String) : String :=
  repositoryName ++ ":" ++ branch ++ ":" ++ logicalId

/-- Split a character list at every colon (semantics of the source's
string split on a colon, written structurally so it evaluates). -/
def splitOnColonChars : List Char → List (List Char)
  | [] => [[]]
  | c :: rest =>
    let r := splitOnColonChars rest
    if c = ':' then [] :: r
    else
      match r with
      | [] => [[c]]
      | h :: t => (c :: h) :: t

/-- The source's repository.split with a colon separator. -/
def splitOnColon (s : String) : List String :=
  (splitOnColonChars s.data).map (fun l => { data := l })

/-- A Decision node as written by DecisionRepository.upsertDecision. The MERGE
pattern keys on the logical id together with graph_unique_id, and the SET
clauses write title, dateCreated, rationale and status. The query never
writes a date or branch property, so those stay absent on upserted nodes;
they are modelled as Option fields that the upsert leaves at none. -/
structure DecisionNode where
  id : String
  graph_unique_id : String
  title : String
  dateCreated : Option String
  dateProp : Option String
  branchProp : Option String
  rationale : Option String
  status : String
deriving Repr, DecidableEq

/-- Input of DecisionRepository.upsertDecision: repository is the Repository
node primary key (name:branch), branch and id identify the decision. -/
structure DecisionInput where
  repository : String
  branch : String
  id : String
  name : String
  date : String
  context : Option String
  status : Option String
deriving Repr, DecidableEq

/-- graph_unique_id computed by upsertDecision: the logical repository name is
the part of the repository node id before the first colon. -/
def decisionGid (d : DecisionInput) : String :=
  formatGraphUniqueId ((splitOnColon d.repository).headD "") d.branch d.id

/-- DecisionRepository.upsertDecision, table-level semantics of the MERGE:
match on (id, graph_unique_id); on match update title, dateCreated, rationale
and status; on create set those plus the key fields. The status parameter
defaults to proposed when absent, on both paths. -/
def upsertDecision (table : List DecisionNode) (d : DecisionInput) : List DecisionNode :=
  let gid := decisionGid d
  let statusVal := d.status.getD "proposed"
  match table.find? (fun n => n.id == d.id && n.graph_unique_id == gid) with
  | some _ =>
    table.map (fun n =>
      if n.id == d.id && n.graph_unique_id == gid then
        { n with title := d.name, dateCreated := some d.date,
                 rationale := d.context, status := statusVal }
      else n)
  | none =>
    table ++ [{ id := d.id, graph_unique_id := gid, title := d.name,
                dateCreated := some d.date, dateProp := none, branchProp := none,
                rationale := d.context, status := statusVal }]

/-- DecisionRepository.upsertDecision with the engine outcome made explicit:
on an engine error the catch block logs and rethrows, so the error
propagates; on success the merged node is returned as post-image. -/
def upsertDecisionE (engine : Except String Unit) (table : List DecisionNode)
    (d : DecisionInput) : Except String (Option DecisionNode × List DecisionNode) :=
  match engine with
  | Except.error e => Except.error e
  | Except.ok _ =>
    let table2 := upsertDecision table d
    Except.ok
      (table2.find? (fun n => n.id == d.id && n.graph_unique_id == decisionGid d), table2)

/-- A Metadata node as written by MetadataRepository.upsertMetadata; the MERGE
keys on graph_unique_id alone. -/
structure MetadataNode where
  id : String
  graph_unique_id : String
  branch : String
  name : String
  content : String
deriving Repr, DecidableEq

/-- Input of MetadataRepository.upsertMetadata. -/
structure MetadataInput where
  repository : String
  branch : String
  id : String
  name : String
  content : String
deriving Repr, DecidableEq

/-- graph_unique_id construction in upsertMetadata: when the repository field
contains a colon it is parsed as name:branch and both parts come from it;
otherwise the raw repository and branch fields are used with the
unknown_repo/unknown_branch fallbacks for empty values. -/
def metadataGid (m : MetadataInput) : String :=
  let parts := splitOnColon m.repository
  if parts.length > 1 then
    parts.headD "" ++ ":" ++ parts.getD 1 m.branch ++ ":" ++ m.id
  else
    (if m.repository == "" then "unknown_repo" else m.repository) ++ ":" ++
      (if m.branch == "" then "unknown_branch" else m.branch) ++ ":" ++ m.id

/-- Table-level semantics of the metadata MERGE: match on graph_unique_id; on
match update name and content; on create additionally set id and branch. -/
def upsertMetadataTable (table : List MetadataNode) (m : MetadataInput) : List MetadataNode :=
  let gid := metadataGid m
  match table.find? (fun n => n.graph_unique_id == gid) with
  | some _ =>
    table.map (fun n =>
      if n.graph_unique_id == gid then { n with name := m.name, content := m.content } else n)
  | none =>
    table ++ [{ id := m.id, graph_unique_id := gid, branch := m.branch,
                name := m.name, content := m.content }]

/-- MetadataRepository.findMetadata: lookup by graph_unique_id. -/
def findMetadata (table : List MetadataNode) (gid : String) : Option MetadataNode :=
  table.find? (fun n => n.graph_unique_id == gid)

/-- Return shape of MetadataRepository.upsertMetadata: either the node re-read
from the store after the MERGE, or the locally constructed object that the
not-found and catch paths build from the input. -/
inductive MetaReturn where
  | fromStore (n : MetadataNode)
  | constructed (m : MetadataInput) (gid : String)
deriving Repr, DecidableEq

/-- MetadataRepository.upsertMetadata with the engine outcome explicit. On an
engine error the catch block does not rethrow: it returns a constructed
Metadata value built from the input while the store is left untouched. On
success the node is re-read; if the re-read misses, a constructed value is
returned as well. -/
def upsertMetadata (engine : Except String Unit) (table : List MetadataNode)
    (m : MetadataInput) : Except String (Option MetaReturn × List MetadataNode) :=
  match engine with
  | Except.error _ =>
    Except.ok (some (MetaReturn.constructed m (metadataGid m)), table)
  | Except.ok _ =>
    let table2 := upsertMetadataTable table m
    match findMetadata table2 (metadataGid m) with
    | some n => Except.ok (some (MetaReturn.fromStore n), table2)
    | none => Except.ok (some (MetaReturn.constructed m (metadataGid m)), table2)

/-- A File node as written by addFileOp (file.ops.ts). The MERGE pattern is
MERGE (f:File with id only), and no graph_unique_id property is ever set;
repository and branch are plain attributes that the ON MATCH branch
overwrites. -/
structure FileNode where
  id : String
  name : String
  path : String
  repository : String
  branch : String
deriving Repr, DecidableEq

/-- Input of addFileOp (the fields relevant to node identity). -/
structure FileInput where
  id : String
  name : String
  path : String
deriving Repr, DecidableEq

/-- addFileOp (file.ops.ts): MERGE on the logical id alone; on match all
attributes including repository and branch are overwritten; on create the
node is inserted with the given repository and branch. -/
def addFileOp (table : List FileNode) (repositoryId branchName : String)
    (f : FileInput) : List FileNode :=
  match table.find? (fun n => n.id == f.id) with
  | some _ =>
    table.map (fun n =>
      if n.id == f.id then
        { n with name := f.name, path := f.path,
                 repository := repositoryId, branch := branchName }
      else n)
  | none =>
    table ++ [{ id := f.id, name := f.name, path := f.path,
                repository := repositoryId, branch := branchName }]

/-- addFileOp with the engine outcome explicit: its catch block rethrows, so
engine errors propagate to the caller. -/
def addFileOpE (engine : Except String Unit) (table : List FileNode)
    (repositoryId branchName : String) (f : FileInput) : Except String (List FileNode) :=
  match engine with
  | Except.error e => Except.error e
  | Except.ok _ => Except.ok (addFileOp table repositoryId branchName f)

/-- Modelled from the spec: the Component, Context and Rule upsert operations
(component.service.ts, context.ops.ts and rule.ops.ts are not under src; only
their callers are). Per spec section 4.5 an entity upsert is a MERGE matching
the node by its primary key graph_unique_id, updating mutable attributes on
match and setting all attributes on create. -/
structure ScopedEntityNode where
  id : String
  graph_unique_id : String
  name : String
deriving Repr, DecidableEq

/-- Modelled from the spec: generic scoped-entity upsert keyed on
graph_unique_id (covers Component, Context and Rule whose code is not under
src). -/
def upsertScopedEntity (table : List ScopedEntityNode)
    (repositoryName branch id name : String) : List ScopedEntityNode :=
  let gid := formatGraphUniqueId repositoryName branch id
  match table.find? (fun n => n.graph_unique_id == gid) with
  | some _ =>
    table.map (fun n => if n.graph_unique_id == gid then { n with name := name } else n)
  | none =>
    table ++ [{ id := id, graph_unique_id := gid, name := name }]

/-- Calendar-day comparison on ISO yyyy-mm-dd strings: lexicographic order on
such strings coincides with day order, matching the engine date comparison
used in getDecisionsByDateRange. -/
def dateLeB (a b : String) : Bool := (a == b) || decide (a < b)

/-- Cypher null semantics for comparisons against a possibly absent property:
a comparison with an absent value is not satisfied. -/
def optDateGeB : Option String → String → Bool
  | none, _ => false
  | some v, s => dateLeB s v

/-- Cypher null semantics, upper bound. -/
def optDateLeB : Option String → String → Bool
  | none, _ => false
  | some v, s => dateLeB v s

/-- Cypher null semantics for equality against a possibly absent property. -/
def optEqB : Option String → String → Bool
  | none, _ => false
  | some v, s => v == s

/-- State of the Decision subgraph: the Decision nodes plus the PART_OF edges
(from a decision graph_unique_id to a Repository node id) that the
getDecisionsByDateRange MATCH pattern traverses. -/
structure DecisionGraph where
  decisions : List DecisionNode
  partOf : List (String × String)
deriving Repr, DecidableEq

/-- DecisionRepository.getDecisionsByDateRange: MATCH decisions attached to
the repository node by PART_OF, WHERE the branch property equals the given
branch and the date property lies within the inclusive bounds. The filter
reads the date and branch properties, which upsertDecision never writes. -/
def getDecisionsByDateRange (g : DecisionGraph)
    (repositoryNodeId decisionBranch startDate endDate : String) : List DecisionNode :=
  g.decisions.filter (fun d =>
    g.partOf.contains (d.graph_unique_id, repositoryNodeId)
      && optEqB d.branchProp decisionBranch
      && optDateGeB d.dateProp startDate
      && optDateLeB d.dateProp endDate)

/-- ComponentDependenciesOperation.execute, over an abstract one-hop
neighbour map. The operation fetches the first-level dependencies, and only
when depth exceeds one it additionally fetches the dependencies of each
first-level dependency, appending those not already collected; no further
levels are ever visited. The one-hop callee memoryService
getComponentDependencies is not under src and is modelled from the spec as
the direct DEPENDS_ON targets. -/
def componentDependenciesExecute (nbrs : String → List String)
    (componentId : String) (depth : Nat) : List String :=
  let firstLevel := nbrs componentId
  if 1 < depth ∧ 0 < firstLevel.length then
    firstLevel.foldl
      (fun all dep => all ++ ((nbrs dep).filter (fun x => !(all.contains x)))) firstLevel
  else firstLevel

/-- The frontier at exactly k hops from the source, for the spec-worded
reachability set that C2 asserts. -/
def hopFrontier (nbrs : String → List String) (src : String) : Nat → List String
  | 0 => [src]
  | d + 1 => ((hopFrontier nbrs src d).flatMap nbrs).eraseDups

/-- The set of components reachable from the source in 1..depth hops, stated
from the claim wording for comparison with componentDependenciesExecute. -/
def specReachableWithin (nbrs : String → List String) (src : String) (depth : Nat) :
    List String :=
  ((List.range depth).flatMap (fun k => hopFrontier nbrs src (k + 1))).eraseDups

/-- A concrete DEPENDS_ON chain comp-a to comp-b to comp-c to comp-d used to
exercise the dependency traversal. -/
def chainNbrs : String → List String :=
  fun s =>
    if s == "comp-a" then ["comp-b"]
    else if s == "comp-b" then ["comp-c"]
    else if s == "comp-c" then ["comp-d"]
    else []

/-- A scoped entity node of the property graph (Component, File, Decision,
Rule or Context) with the properties that the association and bulk-delete
queries read. -/
structure ScopedNode where
  label : String
  id : String
  name : String
  repository : String
  branch : String
deriving Repr, DecidableEq

/-- A global Tag node. -/
structure TagNode where
  id : String
  name : String
deriving Repr, DecidableEq

/-- A Repository node (primary key id is name:branch). -/
structure RepoNode where
  id : String
  name : String
  branch : String
deriving Repr, DecidableEq

/-- Reference to a node as an edge endpoint. -/
inductive NodeRef where
  | scoped (n : ScopedNode)
  | tagRef (id : String)
deriving Repr, DecidableEq

/-- Whether an edge endpoint is a Tag node. -/
def NodeRef.isTagRef : NodeRef → Bool
  | NodeRef.tagRef _ => true
  | NodeRef.scoped _ => false

/-- A typed relationship. -/
structure GraphEdge where
  relType : String
  src : NodeRef
  dst : NodeRef
deriving Repr, DecidableEq

/-- The property-graph state the operations run against. -/
structure Graph where
  scopedNodes : List ScopedNode
  tags : List TagNode
  repos : List RepoNode
  edges : List GraphEdge
deriving Repr, DecidableEq

/-- Cypher MERGE on a relationship: the edge is added only when not already
present, so repeating the MERGE leaves the edge set unchanged. -/
def mergeEdge (g : Graph) (e : GraphEdge) : Graph :=
  if g.edges.contains e then g else { g with edges := g.edges ++ [e] }

/-- The item endpoint MATCH of tagItemOp: label, id, repository and branch
must all agree. -/
def tagItemMatches (g : Graph) (repositoryId branchName itemId itemLabel : String) :
    List ScopedNode :=
  g.scopedNodes.filter (fun n =>
    n.label == itemLabel && n.id == itemId
      && n.repository == repositoryId && n.branch == branchName)

/-- The tag endpoint MATCH of tagItemOp. -/
def tagEndpointMatches (g : Graph) (tagId : String) : List TagNode :=
  g.tags.filter (fun t => t.id == tagId)

/-- The row set of the tagItemOp query: one IS_TAGGED_WITH edge per matched
(item, tag) pair. -/
def tagItemPairs (g : Graph) (repositoryId branchName itemId itemLabel tagId : String) :
    List GraphEdge :=
  (tagItemMatches g repositoryId branchName itemId itemLabel).flatMap (fun i =>
    (tagEndpointMatches g tagId).map (fun t =>
      GraphEdge.mk "IS_TAGGED_WITH" (NodeRef.scoped i) (NodeRef.tagRef t.id)))

/-- tagItemOp (tag.ops.ts): MATCH the item by label, id, repository and
branch, MATCH the tag by id, MERGE an IS_TAGGED_WITH edge for every matched
pair and RETURN it. An empty row set (either endpoint absent) yields false
with the graph untouched; otherwise true. -/
def tagItemOp (g : Graph) (repositoryId branchName itemId itemLabel tagId : String) :
    Bool × Graph :=
  let pairs := tagItemPairs g repositoryId branchName itemId itemLabel tagId
  if pairs.isEmpty then (false, g) else (true, pairs.foldl mergeEdge g)

/-- The component endpoint MATCH of associateFileWithComponentOp. -/
def componentMatches (g : Graph) (repositoryId branchName componentId : String) :
    List ScopedNode :=
  g.scopedNodes.filter (fun n =>
    n.label == "Component" && n.id == componentId
      && n.repository == repositoryId && n.branch == branchName)

/-- The file endpoint MATCH of associateFileWithComponentOp. -/
def fileMatches (g : Graph) (repositoryId branchName fileId : String) :
    List ScopedNode :=
  g.scopedNodes.filter (fun n =>
    n.label == "File" && n.id == fileId
      && n.repository == repositoryId && n.branch == branchName)

/-- The row set of the associateFileWithComponentOp query: one CONTAINS_FILE
edge per matched (component, file) pair. -/
def assocPairs (g : Graph) (repositoryId branchName componentId fileId : String) :
    List GraphEdge :=
  (componentMatches g repositoryId branchName componentId).flatMap (fun c =>
    (fileMatches g repositoryId branchName fileId).map (fun f =>
      GraphEdge.mk "CONTAINS_FILE" (NodeRef.scoped c) (NodeRef.scoped f)))

/-- associateFileWithComponentOp (file.ops.ts): MATCH the component and the
file in the same repository and branch, MERGE a CONTAINS_FILE edge and
RETURN it; an empty row set yields false with the graph untouched. -/
def associateFileWithComponentOp (g : Graph)
    (repositoryId branchName componentId fileId : String) : Bool × Graph :=
  let pairs := assocPairs g repositoryId branchName componentId fileId
  if pairs.isEmpty then (false, g) else (true, pairs.foldl mergeEdge g)

/-- DETACH DELETE of a set of scoped nodes: the nodes and every incident edge
are removed. -/
def detachDelete (g : Graph) (victims : List ScopedNode) : Graph :=
  { g with
    scopedNodes := g.scopedNodes.filter (fun n => !(victims.contains n)),
    edges := g.edges.filter (fun e =>
      !(victims.any (fun v => e.src == NodeRef.scoped v || e.dst == NodeRef.scoped v))) }

/-- Result shape of the bulk-delete services: count, the (type, id, name)
rows, and warnings. -/
structure BulkResult where
  count : Nat
  entities : List (String × String × String)
  warnings : List String
deriving Repr, DecidableEq

/-- The row type computed by bulkDeleteByTag from labels(n): the label other
than Tag, lowercased, or unknown. -/
def rowTypeOf (n : ScopedNode) : String :=
  if n.label == "Tag" then "unknown" else n.label.toLower

/-- The node set matched by EntityService.bulkDeleteByTag: nodes of the given
repository and branch connected to the tag by an edge of type TAGGED_WITH in
either direction. Note the type is TAGGED_WITH while tagItemOp creates
IS_TAGGED_WITH edges. -/
def taggedWithMatches (g : Graph) (repositoryName branch tagId : String) :
    List ScopedNode :=
  g.scopedNodes.filter (fun n =>
    n.repository == repositoryName && n.branch == branch
      && g.edges.any (fun e => e.relType == "TAGGED_WITH"
        && ((e.src == NodeRef.tagRef tagId && e.dst == NodeRef.scoped n)
          || (e.dst == NodeRef.tagRef tagId && e.src == NodeRef.scoped n))))

/-- EntityService.bulkDeleteByTag: verify the tag exists (warning and empty
result otherwise), match the TAGGED_WITH neighbourhood, and DETACH DELETE it
unless dryRun is set. -/
def bulkDeleteByTag (g : Graph) (repositoryName branch tagId : String)
    (dryRun : Bool) : BulkResult × Graph :=
  if (g.tags.filter (fun t => t.id == tagId)).isEmpty then
    ({ count := 0, entities := [],
       warnings := ["Tag with ID " ++ tagId ++ " not found"] }, g)
  else
    let matched := taggedWithMatches g repositoryName branch tagId
    let rows := matched.map (fun n => (rowTypeOf n, n.id, n.name))
    ({ count := rows.length, entities := rows, warnings := [] },
     if dryRun then g else detachDelete g matched)

/-- EntityService.executeBulkDeletion: match nodes of the entity type
satisfying the WHERE clause; when dryRun is set the query has no DETACH
DELETE clause, so the graph is returned unchanged. -/
def executeBulkDeletion (g : Graph) (entityType : String)
    (pred : ScopedNode → Bool) (dryRun : Bool) : List ScopedNode × Graph :=
  let matched := g.scopedNodes.filter (fun n => n.label == entityType && pred n)
  (matched, if dryRun then g else detachDelete g matched)

/-- EntityService.handleTagDeletion: match all tags; DETACH DELETE them
unless dryRun is set. -/
def handleTagDeletion (g : Graph) (dryRun : Bool) : List TagNode × Graph :=
  (g.tags,
   if dryRun then g
   else { g with tags := [],
                 edges := g.edges.filter (fun e =>
                   !(e.src.isTagRef || e.dst.isTagRef)) })

/-- EntityService.processRepositoryScopedEntities: run executeBulkDeletion
for each entity type (skipping Tag) with the repository-and-branch WHERE
clause, accumulating the matched nodes. -/
def processRepositoryScopedEntities (g : Graph) (entityTypes : List String)
    (repositoryName branch : String) (dryRun : Bool) : List ScopedNode × Graph :=
  entityTypes.foldl
    (fun (acc : List ScopedNode × Graph) ty =>
      if ty == "Tag" then acc
      else
        let r := executeBulkDeletion acc.2 ty
          (fun n => n.repository == repositoryName && n.branch == branch) dryRun
        (acc.1 ++ r.1, r.2))
    ([], g)

/-- EntityService.bulkDeleteByRepository: delete every scoped entity of the
repository across all branches, then (only when not dryRun) delete the
Repository nodes of that name. -/
def bulkDeleteByRepository (g : Graph) (repositoryName : String) (dryRun : Bool) :
    List ScopedNode × Graph :=
  let step := ["Component", "Decision", "Rule", "File", "Context"].foldl
    (fun (acc : List ScopedNode × Graph) ty =>
      let r := executeBulkDeletion acc.2 ty (fun n => n.repository == repositoryName) dryRun
      (acc.1 ++ r.1, r.2))
    ([], g)
  if dryRun then step
  else (step.1, { step.2 with
    repos := step.2.repos.filter (fun rp => !(rp.name == repositoryName)) })

/-- Modelled from the spec: BulkOperationsService.bulkDeleteByType is not
under src (EntityService only delegates to it); per spec section 4.5 it
matches the set by entity type within the repository and branch and either
reports it (dryRun) or detach-deletes it, dispatching to the per-type
deletion helpers with the same dryRun flag. -/
def bulkDeleteByType (g : Graph) (repositoryName branch entityType : String)
    (dryRun : Bool) : List ScopedNode × Graph :=
  if entityType == "tag" then
    let r := handleTagDeletion g dryRun
    ([], r.2)
  else if entityType == "all" then
    let r := processRepositoryScopedEntities g
      ["Component", "Decision", "Rule", "File", "Context"] repositoryName branch dryRun
    let r2 := handleTagDeletion r.2 dryRun
    (r.1, r2.2)
  else
    let label :=
      if entityType == "component" then "Component"
      else if entityType == "decision" then "Decision"
      else if entityType == "rule" then "Rule"
      else if entityType == "file" then "File"
      else if entityType == "context" then "Context"
      else entityType
    processRepositoryScopedEntities g [label] repositoryName branch dryRun

/-- Modelled from the spec: BulkOperationsService.bulkDeleteByBranch is not
under src; per spec section 4.5 it matches every scoped entity of the
repository on the target branch, reporting on dryRun and detach-deleting
otherwise, which is exactly processRepositoryScopedEntities on the target
branch. -/
def bulkDeleteByBranch (g : Graph) (repositoryName targetBranch : String)
    (dryRun : Bool) : List ScopedNode × Graph :=
  processRepositoryScopedEntities g
    ["Component", "Decision", "Rule", "File", "Context"] repositoryName targetBranch dryRun

/-- Resolution value of ToolExecutionService.executeTool: either the tool
handler's own return value, or the object with an error string built for an
unknown tool or a caught handler exception. -/
inductive ToolOutcome where
  | payload (v : String)
  | errorObj (msg : String)
deriving Repr, DecidableEq

/-- The message built when no handler is registered for the tool name. -/
def toolNotImplementedMsg (toolName : String) : String :=
  "Tool execution handler not implemented for " ++ toolName ++ "."

/-- The message built in the catch block around handler invocation. -/
def toolExecutionErrorMsg (toolName err : String) : String :=
  "Error executing tool " ++ toolName ++ ": " ++ err

/-- ToolExecutionService.executeTool. The memory-service acquisition
(ensureMemoryService) happens before the try block, so its failure
propagates; inside the try block an unknown tool name resolves to an
error-string object, and any exception a handler throws is caught and
converted to an error-string object, so the promise resolves in every
case. Handlers are modelled as fallible functions from arguments to a
payload. -/
def executeTool (memoryInit : Except String Unit)
    (toolHandlers : String → Option (String → Except String String))
    (toolName toolArgs : String) : Except String ToolOutcome :=
  match memoryInit with
  | Except.error e => Except.error e
  | Except.ok _ =>
    match toolHandlers toolName with
    | none => Except.ok (ToolOutcome.errorObj (toolNotImplementedMsg toolName))
    | some handler =>
      match handler toolArgs with
      | Except.ok v => Except.ok (ToolOutcome.payload v)
      | Except.error e => Except.ok (ToolOutcome.errorObj (toolExecutionErrorMsg toolName e))

/-- Decision table after creating dec-1 with status implemented. -/
def decisionTableImplemented : List DecisionNode :=
  upsertDecision []
    ⟨"my-app:main", "main", "dec-1", "Use X", "2025-01-01", none, some "implemented"⟩

/-- The same table after a second upsert supplying status proposed: an
illegal transition per the spec state machine. -/
def decisionTableAfterProposed : List DecisionNode :=
  upsertDecision decisionTableImplemented
    ⟨"my-app:main", "main", "dec-1", "Use X", "2025-01-01", none, some "proposed"⟩

/-- Decision graph after upserting dec-1 dated 2025-01-01 and attaching it to
its repository node by PART_OF. -/
def decisionDateRangeGraph : DecisionGraph :=
  { decisions :=
      upsertDecision [] ⟨"my-app:main", "main", "dec-1", "Use X", "2025-01-01", none, none⟩,
    partOf := [("my-app:main:dec-1", "my-app:main")] }

/-- Three components of (my-app, main) plus the tag tag-sec, before any
tagging. -/
def threeComponentGraph : Graph :=
  { scopedNodes :=
      [⟨"Component", "comp-a", "A", "my-app", "main"⟩,
       ⟨"Component", "comp-b", "B", "my-app", "main"⟩,
       ⟨"Component", "comp-c", "C", "my-app", "main"⟩],
    tags := [⟨"tag-sec", "security"⟩],
    repos := [],
    edges := [] }

/-- The graph after tag-sec has been applied to all three components via
tagItemOp. -/
def threeTaggedGraph : Graph :=
  (tagItemOp
    (tagItemOp
      (tagItemOp threeComponentGraph "my-app" "main" "comp-a" "Component" "tag-sec").2
      "my-app" "main" "comp-b" "Component" "tag-sec").2
    "my-app" "main" "comp-c" "Component" "tag-sec").2

/-- A graph with one component, one file and one tag in (my-app, main), used
to instantiate the association theorems. -/
def oneOfEachGraph : Graph :=
  { scopedNodes :=
      [⟨"Component", "comp-a", "A", "my-app", "main"⟩,
       ⟨"File", "file-a", "a.ts", "my-app", "main"⟩],
    tags := [⟨"tag-sec", "security"⟩],
    repos := [],
    edges := [] }

/-- A handler table with one succeeding and one throwing handler, used to
instantiate the executeTool theorem. -/
def sampleHandlers : String → Option (String → Except String String) :=
  fun name =>
    if name == "ok-tool" then some (fun args => Except.ok ("done " ++ args))
    else if name == "boom-tool" then some (fun _ => Except.error "kaboom")
    else none

/-- C1 counterexample: upserting the File with logical id file-a first under
branch main and then under branch dev yields a single node (the dev upsert
matched and rewrote the main node), not the two distinct nodes the claim
requires, because addFileOp merges on the logical id alone. -/
theorem addFileOp_cross_branch_collision :
    (addFileOp (addFileOp [] "my-app:main" "main" ⟨"file-a", "A", "src/a.ts"⟩)
        "my-app:dev" "dev" ⟨"file-a", "A", "src/a.ts"⟩).length = 1
    ∧ ¬ ((addFileOp (addFileOp [] "my-app:main" "main" ⟨"file-a", "A", "src/a.ts"⟩)
        "my-app:dev" "dev" ⟨"file-a", "A", "src/a.ts"⟩).length = 2)
    ∧ (addFileOp (addFileOp [] "my-app:main" "main" ⟨"file-a", "A", "src/a.ts"⟩)
        "my-app:dev" "dev" ⟨"file-a", "A", "src/a.ts"⟩).map (fun n => n.branch)
      = ["dev"] := by
  decide

/-- C4 counterexample: a decision stored with status implemented, upserted
again with status proposed, ends with status proposed; the illegal
transition implemented to proposed is applied, not rejected, and the stored
status does not stay unchanged. -/
theorem decision_status_transition_not_enforced :
    decisionTableAfterProposed.map (fun n => n.status) = ["proposed"]
    ∧ decisionTableImplemented.map (fun n => n.status) = ["implemented"]
    ∧ ¬ (decisionTableAfterProposed = decisionTableImplemented) := by
  decide

/-- C5 counterexample: with the engine failing, upsertMetadata resolves
successfully to a locally constructed Metadata object while the store is
unchanged; the error is not propagated and the returned post-image was never
persisted. -/
theorem upsertMetadata_swallows_engine_error :
    upsertMetadata (Except.error "engine failure") []
        ⟨"my-app:main", "main", "meta", "meta", "x"⟩
      = Except.ok
          (some (MetaReturn.constructed ⟨"my-app:main", "main", "meta", "meta", "x"⟩
            "my-app:main:meta"), []) := by
  rfl

/-- C6: after tag-sec has been applied to exactly three components of
(my-app, main) via tagItemOp, bulkDeleteByTag with dryRun reports count 0
with no entities, because it matches edges of type TAGGED_WITH while
tagItemOp created IS_TAGGED_WITH edges; the graph, including all three
components, is left untouched. -/
theorem bulkDeleteByTag_dry_run_scenario :
    bulkDeleteByTag threeTaggedGraph "my-app" "main" "tag-sec" true
      = ({ count := 0, entities := [], warnings := [] }, threeTaggedGraph)
    ∧ threeTaggedGraph.edges.map (fun e => e.relType)
      = ["IS_TAGGED_WITH", "IS_TAGGED_WITH", "IS_TAGGED_WITH"]
    ∧ threeTaggedGraph.scopedNodes.length = 3 := by
  decide

/-- C8: a decision upserted with date 2025-01-01, attached to its repository
node, is not returned by getDecisionsByDateRange over the inclusive range
starting at that very day, because the upsert wrote the date into the
dateCreated property and never set the date and branch properties that the
range query filters on. -/
theorem dateRange_misses_upserted_decision :
    getDecisionsByDateRange decisionDateRangeGraph
        "my-app:main" "main" "2025-01-01" "2025-01-31" = []
    ∧ decisionDateRangeGraph.decisions.map (fun n => (n.graph_unique_id, n.dateCreated))
      = [("my-app:main:dec-1", some "2025-01-01")] := by
  decide

/-- C2 counterexample: on the chain comp-a to comp-b to comp-c to comp-d,
the operation at depth 3 returns only the two components within two hops;
comp-d is reachable in exactly 3 hops and belongs to the claimed result set
but is missing from the computed one. -/
theorem componentDependencies_depth3_truncated :
    componentDependenciesExecute chainNbrs "comp-a" 3 = ["comp-b", "comp-c"]
    ∧ "comp-d" ∈ specReachableWithin chainNbrs "comp-a" 3
    ∧ ¬ ("comp-d" ∈ componentDependenciesExecute chainNbrs "comp-a" 3) := by
  decide

/-- Fixing the repository name and logical id, distinct branches always give
distinct graph_unique_ids: the middle segment of the concatenation is
cancellable on both sides. -/
theorem formatGraphUniqueId_branch_injective (r i b1 b2 : String) (h : b1 ≠ b2) :
    formatGraphUniqueId r b1 i ≠ formatGraphUniqueId r b2 i := by
  intro he
  apply h
  have hd : (formatGraphUniqueId r b1 i).data = (formatGraphUniqueId r b2 i).data := by
    rw [he]
  simp only [formatGraphUniqueId, String.data_append, List.append_assoc] at hd
  have h1 := List.append_cancel_left hd
  have h2 := List.append_cancel_left h1
  exact congrArg String.mk (List.append_cancel_right h2)

/-- C1, amended: the Metadata and Decision upserts (and the spec-modelled
Component, Context and Rule upserts) key on graph_unique_id, so the same
logical id under two different branches of one repository always yields two
distinct nodes; the File upsert (addFileOp) instead merges on the logical id
alone, never writes graph_unique_id, and upserting the same file id under a
second branch rewrites the first branch's node in place, leaving a single
node carrying the second branch. -/
theorem upsert_branch_isolation (r b1 b2 i nm dt ct pth : String)
    (hb : b1 ≠ b2)
    (h1 : splitOnColon (r ++ ":" ++ b1) = [r, b1])
    (h2 : splitOnColon (r ++ ":" ++ b2) = [r, b2]) :
    formatGraphUniqueId r b1 i ≠ formatGraphUniqueId r b2 i
    ∧ (upsertDecision (upsertDecision [] ⟨r ++ ":" ++ b1, b1, i, nm, dt, none, none⟩)
        ⟨r ++ ":" ++ b2, b2, i, nm, dt, none, none⟩).map (fun n => n.graph_unique_id)
      = [formatGraphUniqueId r b1 i, formatGraphUniqueId r b2 i]
    ∧ (upsertMetadataTable (upsertMetadataTable [] ⟨r ++ ":" ++ b1, b1, i, nm, ct⟩)
        ⟨r ++ ":" ++ b2, b2, i, nm, ct⟩).map (fun n => n.graph_unique_id)
      = [formatGraphUniqueId r b1 i, formatGraphUniqueId r b2 i]
    ∧ (upsertScopedEntity (upsertScopedEntity [] r b1 i nm) r b2 i nm).map
        (fun n => n.graph_unique_id)
      = [formatGraphUniqueId r b1 i, formatGraphUniqueId r b2 i]
    ∧ addFileOp (addFileOp [] (r ++ ":" ++ b1) b1 ⟨i, nm, pth⟩)
        (r ++ ":" ++ b2) b2 ⟨i, nm, pth⟩
      = [⟨i, nm, pth, r ++ ":" ++ b2, b2⟩] := by
  have hgid := formatGraphUniqueId_branch_injective r i b1 b2 hb
  have hbeq : (formatGraphUniqueId r b1 i == formatGraphUniqueId r b2 i) = false :=
    beq_eq_false_iff_ne.mpr hgid
  have hgid2 : ¬(r ++ ":" ++ b1 ++ ":" ++ i = r ++ ":" ++ b2 ++ ":" ++ i) := by
    simpa [formatGraphUniqueId] using hgid
  refine ⟨hgid, ?_, ?_, ?_, ?_⟩
  · simp [upsertDecision, decisionGid, h1, h2, formatGraphUniqueId, hbeq, hgid2]
  · simp [upsertMetadataTable, metadataGid, h1, h2, formatGraphUniqueId, hbeq, hgid2]
  · simp [upsertScopedEntity, hbeq, formatGraphUniqueId, hgid2]
  · simp [addFileOp]

/-- C1 witness: the amended branch-isolation theorem instantiated at
repository my-app, branches main and dev, logical id e-1. -/
theorem upsert_branch_isolation_w :
    formatGraphUniqueId "my-app" "main" "e-1" ≠ formatGraphUniqueId "my-app" "dev" "e-1"
    ∧ (upsertDecision
        (upsertDecision []
          ⟨"my-app" ++ ":" ++ "main", "main", "e-1", "N", "2025-01-01", none, none⟩)
        ⟨"my-app" ++ ":" ++ "dev", "dev", "e-1", "N", "2025-01-01", none, none⟩).map
          (fun n => n.graph_unique_id)
      = [formatGraphUniqueId "my-app" "main" "e-1",
         formatGraphUniqueId "my-app" "dev" "e-1"] := by
  have h := upsert_branch_isolation "my-app" "main" "dev" "e-1" "N" "2025-01-01" "c" "p"
    (by decide) (by decide) (by decide)
  exact ⟨h.1, h.2.1⟩

/-- C4, amended: upsertDecision stores the supplied status unconditionally,
defaulting to proposed when none is supplied, on both the create and the
match path; no transition is validated or rejected. After any upsert, every
node carrying the upsert's key has exactly the supplied status, and such a
node exists. -/
theorem upsertDecision_overwrites_status (table : List DecisionNode) (d : DecisionInput) :
    (∀ n ∈ upsertDecision table d,
        n.id = d.id → n.graph_unique_id = decisionGid d →
          n.status = d.status.getD "proposed")
    ∧ ∃ n ∈ upsertDecision table d,
        n.id = d.id ∧ n.graph_unique_id = decisionGid d
          ∧ n.status = d.status.getD "proposed" := by
  unfold upsertDecision
  dsimp only
  split
  · rename_i m hf
    have hm := List.find?_some hf
    have hmem := List.mem_of_find?_eq_some hf
    simp only [Bool.and_eq_true, beq_iff_eq] at hm
    constructor
    · intro n hn hid hgid
      rcases List.mem_map.mp hn with ⟨x, hx, hfx⟩
      by_cases hp : (x.id == d.id && x.graph_unique_id == decisionGid d) = true
      · rw [if_pos hp] at hfx
        subst hfx
        rfl
      · rw [if_neg hp] at hfx
        subst hfx
        simp [hid, hgid] at hp
    · refine ⟨_, List.mem_map_of_mem _ hmem, ?_⟩
      have hp : (m.id == d.id && m.graph_unique_id == decisionGid d) = true := by
        simp [hm.1, hm.2]
      rw [if_pos hp]
      exact ⟨hm.1, hm.2, rfl⟩
  · rename_i hf
    constructor
    · intro n hn hid hgid
      rcases List.mem_append.mp hn with h | h
      · have := List.find?_eq_none.mp hf n h
        simp [hid, hgid] at this
      · simp at h
        subst h
        rfl
    · exact ⟨{ id := d.id, graph_unique_id := decisionGid d, title := d.name,
               dateCreated := some d.date, dateProp := none, branchProp := none,
               rationale := d.context, status := d.status.getD "proposed" },
             List.mem_append_right _ (by simp), rfl, rfl, rfl⟩

/-- C4 witness: the overwrite theorem instantiated at an empty table and a
decision carrying status implemented. -/
theorem upsertDecision_overwrites_status_w :
    ∃ n ∈ upsertDecision []
        ⟨"my-app:main", "main", "dec-1", "D", "2025-01-01", none, some "implemented"⟩,
      n.id = "dec-1"
        ∧ n.graph_unique_id =
            decisionGid ⟨"my-app:main", "main", "dec-1", "D", "2025-01-01", none,
              some "implemented"⟩
        ∧ n.status = "implemented" :=
  (upsertDecision_overwrites_status []
    ⟨"my-app:main", "main", "dec-1", "D", "2025-01-01", none, some "implemented"⟩).2

/-- C5, amended: with a failing engine, the Decision and File upserts
propagate the engine error to the caller, while the Metadata upsert resolves
successfully with a locally constructed post-image whose attributes were
never persisted (the store is returned unchanged). -/
theorem upsert_error_propagation (e : String) (tableD : List DecisionNode)
    (d : DecisionInput) (tableF : List FileNode) (repoId br : String) (f : FileInput)
    (tableM : List MetadataNode) (m : MetadataInput) :
    upsertDecisionE (Except.error e) tableD d = Except.error e
    ∧ addFileOpE (Except.error e) tableF repoId br f = Except.error e
    ∧ upsertMetadata (Except.error e) tableM m
      = Except.ok (some (MetaReturn.constructed m (metadataGid m)), tableM) :=
  ⟨rfl, rfl, rfl⟩

/-- Membership in the accumulation loop of
ComponentDependenciesOperation.execute: an element is collected exactly when
it was already in the accumulator or is a neighbour of some processed
first-level dependency; the filter only drops duplicates. -/
theorem foldl_append_new_mem (nbrs : String → List String) (x : String) :
    ∀ (l acc : List String),
      (x ∈ l.foldl
          (fun all dep => all ++ ((nbrs dep).filter (fun y => !(all.contains y)))) acc
        ↔ x ∈ acc ∨ ∃ b ∈ l, x ∈ nbrs b) := by
  intro l
  induction l with
  | nil => intro acc; simp
  | cons hd tl ih =>
    intro acc
    rw [List.foldl_cons, ih]
    constructor
    · rintro (hx | ⟨b, hbl, hxb⟩)
      · rcases List.mem_append.mp hx with h | h
        · exact Or.inl h
        · exact Or.inr ⟨hd, by simp, (List.mem_filter.mp h).1⟩
      · exact Or.inr ⟨b, List.mem_cons_of_mem _ hbl, hxb⟩
    · rintro (hx | ⟨b, hbl, hxb⟩)
      · exact Or.inl (List.mem_append_left _ hx)
      · rcases List.mem_cons.mp hbl with rfl | hbtl
        · by_cases hacc : x ∈ acc
          · exact Or.inl (List.mem_append_left _ hacc)
          · refine Or.inl (List.mem_append_right _ ?_)
            refine List.mem_filter.mpr ⟨hxb, ?_⟩
            simp [List.contains, List.elem_iff, hacc]
        · exact Or.inr ⟨b, hbtl, hxb⟩

/-- C2, amended: for every dependency graph and every depth of at least 2,
get_component_dependencies returns exactly the components reachable in one
or two hops from the source (duplicates dropped, in encounter order):
deeper levels are never explored, so raising the depth beyond 2 adds
nothing, and components first reachable at hop 3 are excluded. -/
theorem componentDependencies_two_level_membership (nbrs : String → List String)
    (src x : String) (depth : Nat) (hdep : 2 ≤ depth) :
    x ∈ componentDependenciesExecute nbrs src depth
      ↔ (x ∈ nbrs src ∨ ∃ b ∈ nbrs src, x ∈ nbrs b) := by
  unfold componentDependenciesExecute
  dsimp only
  by_cases hfl : nbrs src = []
  · rw [if_neg]
    · simp [hfl]
    · simp [hfl]
  · rw [if_pos ⟨by omega, List.length_pos.mpr hfl⟩]
    exact foldl_append_new_mem nbrs x (nbrs src) (nbrs src)

/-- C2 witness: the two-level membership theorem instantiated on the chain
graph at depth 2. -/
theorem componentDependencies_two_level_membership_w :
    "comp-c" ∈ componentDependenciesExecute chainNbrs "comp-a" 2
      ↔ ("comp-c" ∈ chainNbrs "comp-a" ∨ ∃ b ∈ chainNbrs "comp-a", "comp-c" ∈ chainNbrs b) :=
  componentDependencies_two_level_membership chainNbrs "comp-a" "comp-c" 2 (by decide)

/-- Edge MERGE never touches the scoped nodes. -/
theorem mergeEdge_scopedNodes (g : Graph) (e : GraphEdge) :
    (mergeEdge g e).scopedNodes = g.scopedNodes := by
  unfold mergeEdge
  split <;> rfl

/-- Edge MERGE never touches the tags. -/
theorem mergeEdge_tags (g : Graph) (e : GraphEdge) : (mergeEdge g e).tags = g.tags := by
  unfold mergeEdge
  split <;> rfl

/-- Edge MERGE never touches the repository nodes. -/
theorem mergeEdge_repos (g : Graph) (e : GraphEdge) : (mergeEdge g e).repos = g.repos := by
  unfold mergeEdge
  split <;> rfl

/-- Edge MERGE preserves existing edges. -/
theorem mem_edges_mergeEdge_of_mem (g : Graph) (e e0 : GraphEdge) (h : e0 ∈ g.edges) :
    e0 ∈ (mergeEdge g e).edges := by
  unfold mergeEdge
  split
  · exact h
  · exact List.mem_append_left _ h

/-- Edge MERGE establishes the merged edge. -/
theorem self_mem_edges_mergeEdge (g : Graph) (e : GraphEdge) :
    e ∈ (mergeEdge g e).edges := by
  unfold mergeEdge
  split
  · rename_i hc
    exact List.elem_iff.mp hc
  · exact List.mem_append_right _ (by simp)

/-- Edge MERGE is the identity when the edge already exists. -/
theorem mergeEdge_eq_self_of_mem (g : Graph) (e : GraphEdge) (h : e ∈ g.edges) :
    mergeEdge g e = g := by
  unfold mergeEdge
  rw [if_pos (List.elem_iff.mpr h)]

/-- Folding edge MERGE preserves the scoped nodes. -/
theorem foldl_mergeEdge_scopedNodes :
    ∀ (l : List GraphEdge) (g : Graph), (l.foldl mergeEdge g).scopedNodes = g.scopedNodes
  | [], _ => rfl
  | e :: t, g => by
    rw [List.foldl_cons, foldl_mergeEdge_scopedNodes t, mergeEdge_scopedNodes]

/-- Folding edge MERGE preserves the tags. -/
theorem foldl_mergeEdge_tags :
    ∀ (l : List GraphEdge) (g : Graph), (l.foldl mergeEdge g).tags = g.tags
  | [], _ => rfl
  | e :: t, g => by
    rw [List.foldl_cons, foldl_mergeEdge_tags t, mergeEdge_tags]

/-- Folding edge MERGE preserves the repository nodes. -/
theorem foldl_mergeEdge_repos :
    ∀ (l : List GraphEdge) (g : Graph), (l.foldl mergeEdge g).repos = g.repos
  | [], _ => rfl
  | e :: t, g => by
    rw [List.foldl_cons, foldl_mergeEdge_repos t, mergeEdge_repos]

/-- After folding edge MERGE, every merged edge and every pre-existing edge
is present. -/
theorem mem_edges_foldl_mergeEdge :
    ∀ (l : List GraphEdge) (g : Graph) (e : GraphEdge),
      (e ∈ l ∨ e ∈ g.edges) → e ∈ (l.foldl mergeEdge g).edges
  | [], _, _, h => by
    rcases h with h | h
    · cases h
    · exact h
  | e0 :: t, g, e, h => by
    rw [List.foldl_cons]
    rcases h with h | h
    · rcases List.mem_cons.mp h with rfl | ht
      · exact mem_edges_foldl_mergeEdge t _ e (Or.inr (self_mem_edges_mergeEdge g e))
      · exact mem_edges_foldl_mergeEdge t _ e (Or.inl ht)
    · exact mem_edges_foldl_mergeEdge t _ e
        (Or.inr (mem_edges_mergeEdge_of_mem g e0 e h))

/-- Folding edge MERGE over edges that are all present already is the
identity on the graph. -/
theorem foldl_mergeEdge_eq_self :
    ∀ (l : List GraphEdge) (g : Graph), (∀ e ∈ l, e ∈ g.edges) → l.foldl mergeEdge g = g
  | [], _, _ => rfl
  | e0 :: t, g, h => by
    rw [List.foldl_cons, mergeEdge_eq_self_of_mem g e0 (h e0 (by simp))]
    exact foldl_mergeEdge_eq_self t g (fun e he => h e (List.mem_cons_of_mem _ he))

/-- A matching item and a matching tag contribute their IS_TAGGED_WITH edge
to the tagItemOp row set. -/
theorem mem_tagItemPairs (g : Graph)
    (repositoryId branchName itemId itemLabel tagId : String)
    (i : ScopedNode) (t : TagNode) (hi : i ∈ g.scopedNodes) (ht : t ∈ g.tags)
    (hl : i.label = itemLabel) (hid : i.id = itemId) (hr : i.repository = repositoryId)
    (hbr : i.branch = branchName) (htid : t.id = tagId) :
    GraphEdge.mk "IS_TAGGED_WITH" (NodeRef.scoped i) (NodeRef.tagRef t.id)
      ∈ tagItemPairs g repositoryId branchName itemId itemLabel tagId := by
  unfold tagItemPairs tagItemMatches tagEndpointMatches
  refine List.mem_flatMap.mpr ⟨i, ?_, ?_⟩
  · exact List.mem_filter.mpr ⟨hi, by simp [hl, hid, hr, hbr]⟩
  · exact List.mem_map.mpr ⟨t, List.mem_filter.mpr ⟨ht, by simp [htid]⟩, rfl⟩

/-- When either endpoint MATCH of tagItemOp is empty, the row set is empty. -/
theorem tagItemPairs_eq_nil (g : Graph)
    (repositoryId branchName itemId itemLabel tagId : String)
    (h : tagItemMatches g repositoryId branchName itemId itemLabel = []
      ∨ tagEndpointMatches g tagId = []) :
    tagItemPairs g repositoryId branchName itemId itemLabel tagId = [] := by
  unfold tagItemPairs
  rcases h with h | h
  · rw [h]
    rfl
  · rw [h]
    simp

/-- A matching component and file contribute their CONTAINS_FILE edge to the
associateFileWithComponentOp row set. -/
theorem mem_assocPairs (g : Graph) (repositoryId branchName componentId fileId : String)
    (c f : ScopedNode) (hc : c ∈ g.scopedNodes) (hf : f ∈ g.scopedNodes)
    (hcl : c.label = "Component") (hcid : c.id = componentId)
    (hcr : c.repository = repositoryId) (hcb : c.branch = branchName)
    (hfl : f.label = "File") (hfid : f.id = fileId)
    (hfr : f.repository = repositoryId) (hfb : f.branch = branchName) :
    GraphEdge.mk "CONTAINS_FILE" (NodeRef.scoped c) (NodeRef.scoped f)
      ∈ assocPairs g repositoryId branchName componentId fileId := by
  unfold assocPairs componentMatches fileMatches
  refine List.mem_flatMap.mpr ⟨c, ?_, ?_⟩
  · exact List.mem_filter.mpr ⟨hc, by simp [hcl, hcid, hcr, hcb]⟩
  · exact List.mem_map.mpr ⟨f, List.mem_filter.mpr ⟨hf, by simp [hfl, hfid, hfr, hfb]⟩, rfl⟩

/-- When either endpoint MATCH of associateFileWithComponentOp is empty, the
row set is empty. -/
theorem assocPairs_eq_nil (g : Graph) (repositoryId branchName componentId fileId : String)
    (h : componentMatches g repositoryId branchName componentId = []
      ∨ fileMatches g repositoryId branchName fileId = []) :
    assocPairs g repositoryId branchName componentId fileId = [] := by
  unfold assocPairs
  rcases h with h | h
  · rw [h]
    rfl
  · rw [h]
    simp

/-- C3: for both association operations, when both endpoints exist in the
expected (repository, branch) scope the operation reports success and the
typed edge is present afterwards; when either endpoint MATCH comes up empty
the operation returns false with the graph unchanged (no edge is created,
and the model is a total function, so no exception arises on this path). -/
theorem association_endpoint_semantics (g : Graph)
    (repositoryId branchName itemId itemLabel tagId componentId fileId : String) :
    (∀ i ∈ g.scopedNodes, ∀ t ∈ g.tags,
        i.label = itemLabel → i.id = itemId → i.repository = repositoryId →
          i.branch = branchName → t.id = tagId →
          (tagItemOp g repositoryId branchName itemId itemLabel tagId).1 = true
            ∧ GraphEdge.mk "IS_TAGGED_WITH" (NodeRef.scoped i) (NodeRef.tagRef t.id)
                ∈ (tagItemOp g repositoryId branchName itemId itemLabel tagId).2.edges)
    ∧ (tagItemMatches g repositoryId branchName itemId itemLabel = []
          ∨ tagEndpointMatches g tagId = [] →
        tagItemOp g repositoryId branchName itemId itemLabel tagId = (false, g))
    ∧ (∀ c ∈ g.scopedNodes, ∀ f ∈ g.scopedNodes,
        c.label = "Component" → c.id = componentId → c.repository = repositoryId →
          c.branch = branchName → f.label = "File" → f.id = fileId →
          f.repository = repositoryId → f.branch = branchName →
          (associateFileWithComponentOp g repositoryId branchName componentId fileId).1
              = true
            ∧ GraphEdge.mk "CONTAINS_FILE" (NodeRef.scoped c) (NodeRef.scoped f)
                ∈ (associateFileWithComponentOp g
                    repositoryId branchName componentId fileId).2.edges)
    ∧ (componentMatches g repositoryId branchName componentId = []
          ∨ fileMatches g repositoryId branchName fileId = [] →
        associateFileWithComponentOp g repositoryId branchName componentId fileId
          = (false, g)) := by
  refine ⟨?_, ?_, ?_, ?_⟩
  · intro i hi t ht hl hid hr hbr htid
    have hp := mem_tagItemPairs g repositoryId branchName itemId itemLabel tagId
      i t hi ht hl hid hr hbr htid
    have hne : ¬((tagItemPairs g repositoryId branchName itemId itemLabel tagId).isEmpty
        = true) := by
      rw [List.isEmpty_iff]
      exact List.ne_nil_of_mem hp
    unfold tagItemOp
    dsimp only
    rw [if_neg hne]
    exact ⟨rfl, mem_edges_foldl_mergeEdge _ g _ (Or.inl hp)⟩
  · intro h
    have hnil := tagItemPairs_eq_nil g repositoryId branchName itemId itemLabel tagId h
    unfold tagItemOp
    dsimp only
    rw [if_pos (by rw [List.isEmpty_iff]; exact hnil)]
  · intro c hc f hf hcl hcid hcr hcb hfl hfid hfr hfb
    have hp := mem_assocPairs g repositoryId branchName componentId fileId
      c f hc hf hcl hcid hcr hcb hfl hfid hfr hfb
    have hne : ¬((assocPairs g repositoryId branchName componentId fileId).isEmpty
        = true) := by
      rw [List.isEmpty_iff]
      exact List.ne_nil_of_mem hp
    unfold associateFileWithComponentOp
    dsimp only
    rw [if_neg hne]
    exact ⟨rfl, mem_edges_foldl_mergeEdge _ g _ (Or.inl hp)⟩
  · intro h
    have hnil := assocPairs_eq_nil g repositoryId branchName componentId fileId h
    unfold associateFileWithComponentOp
    dsimp only
    rw [if_pos (by rw [List.isEmpty_iff]; exact hnil)]

/-- C3 witness: both association operations succeed on the one-of-each graph
where both endpoints exist, and the tagging operation fails cleanly once the
item MATCH is empty (a missing component id). -/
theorem association_endpoint_semantics_w :
    ((tagItemOp oneOfEachGraph "my-app" "main" "comp-a" "Component" "tag-sec").1 = true
      ∧ GraphEdge.mk "IS_TAGGED_WITH"
          (NodeRef.scoped ⟨"Component", "comp-a", "A", "my-app", "main"⟩)
          (NodeRef.tagRef "tag-sec")
        ∈ (tagItemOp oneOfEachGraph "my-app" "main" "comp-a" "Component" "tag-sec").2.edges)
    ∧ tagItemOp oneOfEachGraph "my-app" "main" "comp-x" "Component" "tag-sec"
      = (false, oneOfEachGraph) := by
  have h := association_endpoint_semantics oneOfEachGraph "my-app" "main" "comp-a"
    "Component" "tag-sec" "comp-a" "file-a"
  have h2 := association_endpoint_semantics oneOfEachGraph "my-app" "main" "comp-x"
    "Component" "tag-sec" "comp-a" "file-a"
  refine ⟨?_, ?_⟩
  · exact h.1 ⟨"Component", "comp-a", "A", "my-app", "main"⟩ (by decide)
      ⟨"tag-sec", "security"⟩ (by decide) rfl rfl rfl rfl rfl
  · exact h2.2.1 (Or.inl (by decide))

/-- C9: when the item and the tag both exist in the expected scope, running
tagItemOp twice with the same arguments reports success both times and the
second run leaves exactly the edge set of the first: the MERGE finds every
IS_TAGGED_WITH edge already present and adds nothing. -/
theorem tagItem_idempotent (g : Graph)
    (repositoryId branchName itemId itemLabel tagId : String)
    (i : ScopedNode) (t : TagNode) (hi : i ∈ g.scopedNodes) (ht : t ∈ g.tags)
    (hl : i.label = itemLabel) (hid : i.id = itemId) (hr : i.repository = repositoryId)
    (hbr : i.branch = branchName) (htid : t.id = tagId) :
    (tagItemOp g repositoryId branchName itemId itemLabel tagId).1 = true
    ∧ (tagItemOp (tagItemOp g repositoryId branchName itemId itemLabel tagId).2
        repositoryId branchName itemId itemLabel tagId).1 = true
    ∧ (tagItemOp (tagItemOp g repositoryId branchName itemId itemLabel tagId).2
        repositoryId branchName itemId itemLabel tagId).2.edges
      = (tagItemOp g repositoryId branchName itemId itemLabel tagId).2.edges := by
  have hp := mem_tagItemPairs g repositoryId branchName itemId itemLabel tagId
    i t hi ht hl hid hr hbr htid
  have hne : ¬((tagItemPairs g repositoryId branchName itemId itemLabel tagId).isEmpty
      = true) := by
    rw [List.isEmpty_iff]
    exact List.ne_nil_of_mem hp
  have h1 : tagItemOp g repositoryId branchName itemId itemLabel tagId
      = (true, (tagItemPairs g repositoryId branchName itemId itemLabel tagId).foldl
          mergeEdge g) := by
    unfold tagItemOp
    dsimp only
    rw [if_neg hne]
  have hpairs :
      tagItemPairs
        ((tagItemPairs g repositoryId branchName itemId itemLabel tagId).foldl mergeEdge g)
        repositoryId branchName itemId itemLabel tagId
      = tagItemPairs g repositoryId branchName itemId itemLabel tagId := by
    unfold tagItemPairs tagItemMatches tagEndpointMatches
    rw [foldl_mergeEdge_scopedNodes, foldl_mergeEdge_tags]
  have hall : ∀ e ∈ tagItemPairs g repositoryId branchName itemId itemLabel tagId,
      e ∈ ((tagItemPairs g repositoryId branchName itemId itemLabel tagId).foldl
        mergeEdge g).edges :=
    fun e he => mem_edges_foldl_mergeEdge _ g e (Or.inl he)
  have h2 : tagItemOp
      ((tagItemPairs g repositoryId branchName itemId itemLabel tagId).foldl mergeEdge g)
      repositoryId branchName itemId itemLabel tagId
      = (true, (tagItemPairs g repositoryId branchName itemId itemLabel tagId).foldl
          mergeEdge
          ((tagItemPairs g repositoryId branchName itemId itemLabel tagId).foldl
            mergeEdge g)) := by
    unfold tagItemOp
    dsimp only
    rw [hpairs, if_neg hne]
  have h3 := foldl_mergeEdge_eq_self
    (tagItemPairs g repositoryId branchName itemId itemLabel tagId)
    ((tagItemPairs g repositoryId branchName itemId itemLabel tagId).foldl mergeEdge g)
    hall
  refine ⟨by rw [h1], ?_, ?_⟩
  · rw [h1]
    dsimp only
    rw [h2]
  · rw [h1]
    dsimp only
    rw [h2]
    dsimp only
    rw [h3]

/-- C9 witness: tagging comp-a twice on the one-of-each graph succeeds both
times with an unchanged edge set. -/
theorem tagItem_idempotent_w :
    (tagItemOp oneOfEachGraph "my-app" "main" "comp-a" "Component" "tag-sec").1 = true
    ∧ (tagItemOp (tagItemOp oneOfEachGraph "my-app" "main" "comp-a" "Component"
        "tag-sec").2 "my-app" "main" "comp-a" "Component" "tag-sec").1 = true
    ∧ (tagItemOp (tagItemOp oneOfEachGraph "my-app" "main" "comp-a" "Component"
        "tag-sec").2 "my-app" "main" "comp-a" "Component" "tag-sec").2.edges
      = (tagItemOp oneOfEachGraph "my-app" "main" "comp-a" "Component" "tag-sec").2.edges :=
  tagItem_idempotent oneOfEachGraph "my-app" "main" "comp-a" "Component" "tag-sec"
    ⟨"Component", "comp-a", "A", "my-app", "main"⟩ ⟨"tag-sec", "security"⟩
    (by decide) (by decide) rfl rfl rfl rfl rfl

/-- A fold whose step never changes the second component keeps it fixed. -/
theorem foldl_snd_invariant {σ τ ι : Type} (step : σ × τ → ι → σ × τ) (l : List ι)
    (h : ∀ a i, (step a i).2 = a.2) : ∀ a, (l.foldl step a).2 = a.2 := by
  induction l with
  | nil => intro a; rfl
  | cons x xs ih => intro a; rw [List.foldl_cons, ih, h]

/-- C7: every bulk-delete operation invoked with dryRun leaves the graph
exactly as it was: the dry-run paths run pure MATCH queries with no DELETE
clause, so no node or edge is created, deleted or modified. -/
theorem bulk_delete_dry_run_frame (g : Graph)
    (entityType repositoryName branch targetBranch tagId : String)
    (pred : ScopedNode → Bool) (entityTypes : List String) :
    (executeBulkDeletion g entityType pred true).2 = g
    ∧ (handleTagDeletion g true).2 = g
    ∧ (processRepositoryScopedEntities g entityTypes repositoryName branch true).2 = g
    ∧ (bulkDeleteByTag g repositoryName branch tagId true).2 = g
    ∧ (bulkDeleteByType g repositoryName branch entityType true).2 = g
    ∧ (bulkDeleteByBranch g repositoryName targetBranch true).2 = g
    ∧ (bulkDeleteByRepository g repositoryName true).2 = g := by
  have hproc : ∀ (types : List String) (br : String),
      (processRepositoryScopedEntities g types repositoryName br true).2 = g := by
    intro types br
    unfold processRepositoryScopedEntities
    exact foldl_snd_invariant _ types (fun a ty => by dsimp only; split <;> rfl) ([], g)
  refine ⟨rfl, rfl, hproc entityTypes branch, ?_, ?_, hproc _ targetBranch, ?_⟩
  · unfold bulkDeleteByTag
    dsimp only
    split <;> rfl
  · unfold bulkDeleteByType
    dsimp only
    split
    · rfl
    · split
      · dsimp only
        exact hproc _ branch
      · exact hproc _ branch
  · unfold bulkDeleteByRepository
    dsimp only
    exact foldl_snd_invariant _ _ (fun a ty => by dsimp only; rfl) ([], g)

/-- C10: with the memory service available, executeTool resolves for every
tool name, argument object and handler table: an unknown tool name resolves
to an object carrying an error string, a handler exception is caught and
converted to an object carrying an error string, and a handler success is
passed through; in no case does the call itself reject. -/
theorem executeTool_handler_totality
    (toolHandlers : String → Option (String → Except String String))
    (toolName toolArgs : String) :
    (∃ r, executeTool (Except.ok ()) toolHandlers toolName toolArgs = Except.ok r)
    ∧ (toolHandlers toolName = none →
        executeTool (Except.ok ()) toolHandlers toolName toolArgs
          = Except.ok (ToolOutcome.errorObj (toolNotImplementedMsg toolName)))
    ∧ (∀ h e, toolHandlers toolName = some h → h toolArgs = Except.error e →
        executeTool (Except.ok ()) toolHandlers toolName toolArgs
          = Except.ok (ToolOutcome.errorObj (toolExecutionErrorMsg toolName e)))
    ∧ (∀ h v, toolHandlers toolName = some h → h toolArgs = Except.ok v →
        executeTool (Except.ok ()) toolHandlers toolName toolArgs
          = Except.ok (ToolOutcome.payload v)) := by
  cases hh : toolHandlers toolName with
  | none =>
    refine ⟨⟨ToolOutcome.errorObj (toolNotImplementedMsg toolName),
      by simp [executeTool, hh]⟩, ?_, ?_, ?_⟩
    · intro _
      simp [executeTool, hh]
    · intro h e hsome
      cases hsome
    · intro h v hsome
      cases hsome
  | some hd =>
    refine ⟨?_, ?_, ?_, ?_⟩
    · cases hr : hd toolArgs with
      | ok v =>
        exact ⟨ToolOutcome.payload v, by simp [executeTool, hh, hr]⟩
      | error e =>
        exact ⟨ToolOutcome.errorObj (toolExecutionErrorMsg toolName e),
          by simp [executeTool, hh, hr]⟩
    · intro hnone
      cases hnone
    · intro h e hsome herr
      cases hsome
      simp [executeTool, hh, herr]
    · intro h v hsome hok
      cases hsome
      simp [executeTool, hh, hok]

/-- C10 witness: on the sample handler table, an unknown tool and a throwing
handler both resolve to error-string objects. -/
theorem executeTool_handler_totality_w :
    executeTool (Except.ok ()) sampleHandlers "missing-tool" "x"
      = Except.ok (ToolOutcome.errorObj (toolNotImplementedMsg "missing-tool"))
    ∧ executeTool (Except.ok ()) sampleHandlers "boom-tool" "x"
      = Except.ok (ToolOutcome.errorObj (toolExecutionErrorMsg "boom-tool" "kaboom")) := by
  constructor
  · exact (executeTool_handler_totality sampleHandlers "missing-tool" "x").2.1 rfl
  · exact (executeTool_handler_totality sampleHandlers "boom-tool" "x").2.2.1
      (fun _ => Except.error "kaboom") "kaboom" rfl rfl

end KuzuMem
